import Mathlib

/-! Loopback filesystem actions: export-filesystem and new-filesystem.

A shallow embedding of `actions/export_filesystem_action.go` and
`actions/new_filesystem_action.go`.

* Go strings are Lean `String`s (sequences of Unicode scalars; command output is
  taken to be valid UTF-8).
* Every interaction with the operating system (`exec.Command(...).Run()`,
  `.Output()`, `os.Create`, `os.MkdirAll`, the deferred `f.Close()`) is a `Cmd`.
  The environment is a `World`: it answers each command with a `Result`, and the
  answer may depend on everything that happened before (the `Trace`).
* A function of the program takes the world and the trace so far and returns
  its Go return value together with the extended trace.
* A Go run-time panic (index out of range) is the `Outcome.goPanic` outcome.
* `log.Printf` calls are left out: they return nothing and steer no branch.
-/

namespace Builder

/-! ## The pieces of the Go standard library the actions use -/

/-- Go `unicode.IsSpace`: the Unicode White_Space property. -/
def isSpace (c : Char) : Bool :=
  let n := c.toNat
  n == 0x09 || n == 0x0A || n == 0x0B || n == 0x0C || n == 0x0D || n == 0x20 ||
  n == 0x85 || n == 0xA0 || n == 0x1680 || (0x2000 ≤ n && n ≤ 0x200A) ||
  n == 0x2028 || n == 0x2029 || n == 0x202F || n == 0x205F || n == 0x3000

/-- The scanning loop of Go `strings.Fields`: `cur` is the field being read. -/
def fieldsGo : List Char → List Char → List String
  | [], cur => if cur = [] then [] else [String.mk cur]
  | c :: cs, cur =>
    if isSpace c then
      if cur = [] then fieldsGo cs [] else String.mk cur :: fieldsGo cs []
    else fieldsGo cs (cur ++ [c])

/-- Go `strings.Fields`: the maximal runs of non-space characters, in order. -/
def Fields (s : String) : List String := fieldsGo s.toList []

/-- The scanning loop of Go `strings.Split` for a one-byte separator. -/
def splitGo (sep : Char) : List Char → List Char → List String
  | [], cur => [String.mk cur]
  | c :: cs, cur =>
    if c = sep then String.mk cur :: splitGo sep cs [] else splitGo sep cs (cur ++ [c])

/-- Go `strings.Split(s, string(sep))` for the one-byte separators the actions
use (a newline and a colon). -/
def Split (s : String) (sep : Char) : List String := splitGo sep s.toList []

/-- Go `strings.TrimSpace`: drop leading and trailing white space. -/
def TrimSpace (s : String) : String :=
  String.mk ((s.toList.dropWhile isSpace).reverse.dropWhile isSpace).reverse

/-- Go `strings.HasPrefix`. -/
def HasPrefix (s pre : String) : Bool := pre.toList.isPrefixOf s.toList

/-- The search loop of Go `strings.Contains`. -/
def containsGo (sub : List Char) : List Char → Bool
  | [] => sub.isEmpty
  | c :: cs => sub.isPrefixOf (c :: cs) || containsGo sub cs

/-- Go `strings.Contains`. -/
def Contains (s sub : String) : Bool := containsGo sub.toList s.toList

/-- Go `strconv.FormatInt(i, 10)`. -/
def FormatInt (i : Int) : String := toString i

/-- Go `path.IsAbs`: the path starts with a slash. -/
def IsAbs (p : String) : Bool :=
  match p.toList with
  | '/' :: _ => true
  | _ => false

/-- The backward scan of `path.Clean` after a `..` element: having dropped one
byte (`out.w--`), keep dropping while `out.w > dotdot` and the byte at `out.w`
is not a slash.  `buf` is the buffer, the argument the current `out.w`. -/
def cleanBacktrack (dotdot : Nat) (buf : List Char) : Nat → Nat
  | 0 => 0
  | w + 1 =>
    if w + 1 > dotdot ∧ buf.get? (w + 1) ≠ some '/' then cleanBacktrack dotdot buf w
    else w + 1

/-- The main loop of Go `path.Clean`.  `rest` is `path[r:]`, `out` the bytes
written so far (`out.w = out.length`).  Every iteration reads at least one byte,
so a fuel of `len(path)` iterations is never exhausted. -/
def cleanLoop (rooted : Bool) : Nat → List Char → List Char → Nat → List Char
  | 0, _, out, _ => out
  | _ + 1, [], out, _ => out
  | fuel + 1, c :: rest, out, dotdot =>
    if c = '/' then
      -- empty path element
      cleanLoop rooted fuel rest out dotdot
    else if c = '.' ∧ (rest = [] ∨ rest.head? = some '/') then
      -- . element
      cleanLoop rooted fuel rest out dotdot
    else if c = '.' ∧ rest.head? = some '.' ∧
        (rest.tail = [] ∨ rest.tail.head? = some '/') then
      -- .. element: remove to last /
      if out.length > dotdot then
        cleanLoop rooted fuel rest.tail
          (out.take (cleanBacktrack dotdot out (out.length - 1))) dotdot
      else if !rooted then
        -- cannot backtrack, but not rooted, so append .. element
        let out1 := if out.length > 0 then out ++ ['/'] else out
        let out2 := out1 ++ ['.', '.']
        cleanLoop rooted fuel rest.tail out2 out2.length
      else cleanLoop rooted fuel rest.tail out dotdot
    else
      -- real path element: add slash if needed, then copy the element
      let out1 :=
        if (rooted ∧ out.length ≠ 1) ∨ (!rooted ∧ out.length ≠ 0) then out ++ ['/'] else out
      cleanLoop rooted fuel ((c :: rest).dropWhile (fun x => x != '/'))
        (out1 ++ (c :: rest).takeWhile (fun x => x != '/')) dotdot

/-- Go `path.Clean`: the shortest path name equivalent to `path` by purely
lexical processing. -/
def Clean (path : String) : String :=
  if path = "" then "."
  else
    let rooted := IsAbs path
    let out :=
      if rooted then cleanLoop true path.length path.toList.tail ['/'] 1
      else cleanLoop false path.length path.toList [] 0
    if out.length = 0 then "." else String.mk out

/-- The element loop of Go `path.Join`. -/
def joinGo : List String → List Char → List Char
  | [], buf => buf
  | e :: es, buf =>
    if buf.length > 0 ∨ e ≠ "" then
      joinGo es ((if buf.length > 0 then buf ++ ['/'] else buf) ++ e.toList)
    else joinGo es buf

/-- Go `path.Join`: join the non-empty elements with slashes and clean the
result; the empty string when every element is empty. -/
def Join (elem : List String) : String :=
  if (elem.map String.length).sum = 0 then "" else Clean (String.mk (joinGo elem []))

/-! ## Commands, results and the environment -/

/-- One interaction with the operating system. -/
inductive Cmd where
  /-- `exec.Command(prog, args...)` followed by `.Run()` or `.Output()`. -/
  | exec (prog : String) (args : List String)
  /-- `os.Create(path)`. -/
  | create (path : String)
  /-- `os.MkdirAll(path, perm)`. -/
  | mkdirAll (path : String) (perm : Nat)
  /-- The deferred `f.Close()` of the file made by `os.Create(path)`. -/
  | close (path : String)
  deriving DecidableEq, Repr

/-- What the operating system answers: the Go `error` (`none` is `nil`, `some e`
an error whose text is `e`) and the bytes written to standard output. -/
structure Result where
  err : Option String
  out : String
  deriving DecidableEq, Repr

/-- A command together with the answer it got. -/
abbrev Event := Cmd × Result

/-- Everything that happened so far, oldest first. -/
abbrev Trace := List Event

/-- The environment: the answer to a command, given the history. -/
abbrev World := Trace → Cmd → Result

/-- Issue a command: ask the world and record the event. -/
def issue (w : World) (t : Trace) (c : Cmd) : Result × Trace :=
  (w t c, t ++ [(c, w t c)])

deriving instance DecidableEq for Except

/-- How a Go function ends: it returns a value, or it panics. -/
inductive Outcome (α : Type) where
  | ret (a : α)
  | goPanic
  deriving DecidableEq, Repr

/-- The program name of an executed command. -/
def Cmd.prog : Cmd → Option String
  | .exec p _ => some p
  | _ => none

/-- The programs run along a trace, in order. -/
def progs (t : Trace) : List String := t.filterMap (fun e => e.1.prog)

/-! ## The build context and the base action (package `debos`) -/

/-- The field of `debos.DebosContext` the actions read. -/
structure DebosContext where
  Artifactdir : String
  deriving DecidableEq, Repr

/-- The fields of `debos.BaseAction` the actions read. -/
structure BaseAction where
  Action : String
  Description : String
  deriving DecidableEq, Repr

/-! ## export_filesystem_action.go -/

/-- The struct `ExportFilesystemAction`. -/
structure ExportFilesystemAction extends BaseAction where
  Source : String
  Name : String
  Destination : String
  Trim : Bool
  deriving DecidableEq, Repr

/-- `NewExportFilesystemAction`: every string field empty, `Trim` true. -/
def NewExportFilesystemAction : ExportFilesystemAction :=
  { Action := "export-filesystem", Description := "",
    Source := "", Name := "", Destination := "", Trim := true }

/-- `ExportFilesystemAction.Verify` (lines 30-38).  The receiver is a pointer, so
the model returns the action as the call leaves it, and the trace. -/
def ExportFilesystemAction.Verify (a : ExportFilesystemAction) (_context : DebosContext)
    (_w : World) (t : Trace) : (Option String × ExportFilesystemAction) × Trace :=
  if a.Source = "" ∧ a.Name = "" then
    ((some "export-filesystem: either source or name must be specified", a), t)
  else if a.Destination = "" then
    ((some "export-filesystem: destination must be specified", a), t)
  else ((none, a), t)

/-- The loop over `candidates` in `Run` (lines 49-55): the state is
`(sourcePath, found)`; the first candidate whose `test -e` succeeds breaks the
loop. -/
def tryCandidates (w : World) : List String → String → Bool → Trace → (String × Bool) × Trace
  | [], sourcePath, found, t => ((sourcePath, found), t)
  | candidate :: rest, sourcePath, found, t =>
    let r := issue w t (.exec "test" ["-e", candidate])
    if r.1.err = none then ((candidate, true), r.2)
    else tryCandidates w rest sourcePath found r.2

/-- The glob fallback of `Run` (lines 57-66). -/
def globFallback (name : String) (w : World) (sourcePath : String) (found : Bool)
    (t : Trace) : (String × Bool) × Trace :=
  let r := issue w t (.exec "bash" ["-c", "ls /tmp/" ++ name ++ "*"])
  if r.1.err = none then
    match Fields r.1.out with
    | f0 :: _ => ((f0, true), r.2)
    | [] => ((sourcePath, found), r.2)
  else ((sourcePath, found), r.2)

/-- The source resolution of `Run` (lines 41-71): `Except.ok sourcePath`, or
`Except.error` with the text of the error `Run` returns. -/
def resolveSource (a : ExportFilesystemAction) (w : World) (t : Trace) :
    Except String String × Trace :=
  let sourcePath := a.Source
  if sourcePath = "" ∧ a.Name ≠ "" then
    let candidates := ["/tmp/" ++ a.Name ++ ".img", "/tmp/" ++ a.Name]
    let s1 := tryCandidates w candidates sourcePath false t
    let s2 := if !s1.1.2 then globFallback a.Name w s1.1.1 s1.1.2 s1.2 else s1
    if !s2.1.2 then
      (.error ("export-filesystem: could not find a file for name '" ++ a.Name ++ "'"), s2.2)
    else (.ok s2.1.1, s2.2)
  else (.ok sourcePath, t)

/-- The helper `isImageMounted` (lines 122-129). -/
def isImageMounted (imagePath : String) (w : World) (t : Trace) : Bool × Trace :=
  let r := issue w t (.exec "losetup" ["-j", imagePath])
  if r.1.err ≠ none then (false, r.2) else (Contains r.1.out imagePath, r.2)

/-- The loop device named by one line of `losetup -j` (lines 143-144):
`strings.Split(strings.Fields(line)[0], ":")[0]`.  Indexing an empty slice
panics. -/
def loopDevice (line : String) : Outcome String :=
  match Fields line with
  | [] => .goPanic
  | f0 :: _ =>
    match Split f0 ':' with
    | [] => .goPanic
    | loopdev :: _ => .ret loopdev

/-- The teardown of one loop device (lines 145-151): unmount its mountpoint, if
`findmnt` printed one, then detach the device.  The error of `findmnt` and the
results of `umount` and `losetup -d` are discarded. -/
def unmountOne (w : World) (loopdev : String) (t : Trace) : Trace :=
  let m := issue w t (.exec "findmnt" ["-n", "-o", "TARGET", loopdev])
  let mnt := TrimSpace m.1.out
  let t2 := if mnt ≠ "" then (issue w m.2 (.exec "umount" [mnt])).2 else m.2
  (issue w t2 (.exec "losetup" ["-d", loopdev])).2

/-- The loop over `lines` in `unmountImage` (lines 139-152). -/
def unmountLines (w : World) : List String → Trace → Outcome Unit × Trace
  | [], t => (.ret (), t)
  | line :: rest, t =>
    if line = "" then unmountLines w rest t
    else
      match loopDevice line with
      | .goPanic => (.goPanic, t)
      | .ret loopdev => unmountLines w rest (unmountOne w loopdev t)

/-- The helper `unmountImage` (lines 132-154). -/
def unmountImage (imagePath : String) (w : World) (t : Trace) :
    Outcome (Option String) × Trace :=
  let r := issue w t (.exec "losetup" ["-j", imagePath])
  if r.1.err ≠ none ∨ r.1.out = "" then
    (.ret (some ("no loop device found for " ++ imagePath)), r.2)
  else
    match unmountLines w (Split r.1.out '\n') r.2 with
    | (.ret _, t2) => (.ret none, t2)
    | (.goPanic, t2) => (.goPanic, t2)

/-- The helper `runBlkidType` (lines 157-164). -/
def runBlkidType (device : String) (w : World) (t : Trace) :
    (String × Option String) × Trace :=
  let r := issue w t (.exec "blkid" ["-s", "TYPE", "-o", "value", device])
  if r.1.err ≠ none then (("", r.1.err), r.2) else ((r.1.out, none), r.2)

/-- The unmount step of `Run` (lines 81-89): runs `unmountImage` when the image
is reported mounted; its error is only logged. -/
def unmountPhase (sourcePath : String) (w : World) (t : Trace) : Outcome Unit × Trace :=
  let m := isImageMounted sourcePath w t
  if m.1 then
    match unmountImage sourcePath w m.2 with
    | (.ret _, t2) => (.ret (), t2)
    | (.goPanic, t2) => (.goPanic, t2)
  else (.ret (), m.2)

/-- The shrink step of `Run` (lines 91-100); the results of `e2fsck` and
`resize2fs` are discarded. -/
def shrinkPhase (sourcePath : String) (w : World) (t : Trace) : Trace :=
  let b := runBlkidType sourcePath w t
  let fsType := TrimSpace b.1.1
  if HasPrefix fsType "ext" then
    let t4 := (issue w b.2 (.exec "e2fsck" ["-f", "-y", sourcePath])).2
    (issue w t4 (.exec "resize2fs" ["-M", sourcePath])).2
  else b.2

/-- The `if a.Trim` block of `Run` (lines 80-102). -/
def trimPhase (sourcePath : String) (w : World) (t : Trace) : Outcome Unit × Trace :=
  match unmountPhase sourcePath w t with
  | (.goPanic, t2) => (.goPanic, t2)
  | (.ret _, t2) => (.ret (), shrinkPhase sourcePath w t2)

/-- The path normalisation of `Run` (lines 72-78): a relative path is joined
under the artifact directory. -/
def absPath (context : DebosContext) (p : String) : String :=
  if !IsAbs p then Join [context.Artifactdir, p] else p

/-- The copy command of `Run` (lines 105-106). -/
def ddCmd (sourcePath destPath : String) : Cmd :=
  let blockSize : Int := 4 * 1024 * 1024
  .exec "dd" ["if=" ++ sourcePath, "of=" ++ destPath, "bs=" ++ FormatInt blockSize]

/-- The copy step of `Run` (lines 103-111): run `dd`; its failure is the error
of `Run`. -/
def copyPhase (sourcePath destPath : String) (w : World) (t : Trace) : Option String × Trace :=
  let r := issue w t (ddCmd sourcePath destPath)
  match r.1.err with
  | some e => (some ("failed to export filesystem: " ++ e), r.2)
  | none => (none, r.2)

/-- `Run` from line 72 on, once the source path is known. -/
def exportFrom (a : ExportFilesystemAction) (context : DebosContext) (sourcePath : String)
    (w : World) (t : Trace) : Outcome (Option String) × Trace :=
  let sourcePath := absPath context sourcePath
  let destPath := absPath context a.Destination
  match (if a.Trim then trimPhase sourcePath w t else (.ret (), t)) with
  | (.goPanic, t2) => (.goPanic, t2)
  | (.ret _, t2) =>
    let c := copyPhase sourcePath destPath w t2
    (.ret c.1, c.2)

/-- `ExportFilesystemAction.Run` (lines 40-112). -/
def ExportFilesystemAction.Run (a : ExportFilesystemAction) (context : DebosContext)
    (w : World) (t : Trace) : Outcome (Option String) × Trace :=
  match resolveSource a w t with
  | (.error e, t1) => (.ret (some e), t1)
  | (.ok sourcePath, t1) => exportFrom a context sourcePath w t1

/-! ## new_filesystem_action.go -/

/-- The struct `NewFilesystemAction`. -/
structure NewFilesystemAction extends BaseAction where
  Path : String
  Size : String
  Filesystem : String
  Label : String
  Mountpoint : String
  Options : String
  mountTarget : String
  deriving DecidableEq, Repr

/-- `NewNewFilesystemAction`: only the action name is set. -/
def NewNewFilesystemAction : NewFilesystemAction :=
  { Action := "new-filesystem", Description := "", Path := "", Size := "",
    Filesystem := "", Label := "", Mountpoint := "", Options := "", mountTarget := "" }

/-- `NewFilesystemAction.Verify` (lines 33-38). -/
def NewFilesystemAction.Verify (a : NewFilesystemAction) (_context : DebosContext) :
    Option String :=
  if a.Path = "" ∨ a.Size = "" ∨ a.Filesystem = "" ∨ a.Mountpoint = "" then
    some "new-filesystem: path, size, filesystem, and mountpoint are required"
  else none

/-- The argument list `mkfsArgs` built in `Run` (lines 58-67). -/
def mkfsArgs (a : NewFilesystemAction) (imagePath : String) : List String :=
  let mkfsArgs : List String := []
  let mkfsArgs :=
    if a.Label ≠ "" then
      if HasPrefix a.Filesystem "ext" ∨ a.Filesystem = "xfs" ∨ a.Filesystem = "vfat" ∨
          a.Filesystem = "ntfs" then
        mkfsArgs ++ ["-L", a.Label]
      else mkfsArgs
    else mkfsArgs
  let mkfsArgs := if a.Options ≠ "" then mkfsArgs ++ Fields a.Options else mkfsArgs
  mkfsArgs ++ [imagePath]

/-- The format command of `Run` (lines 56-68). -/
def mkfsCmd (a : NewFilesystemAction) (imagePath : String) : Cmd :=
  .exec ("mkfs." ++ a.Filesystem) (mkfsArgs a imagePath)

/-- The mount target of `Run` (lines 72-75): a relative mountpoint goes under
`/mnt`. -/
def mountDir (a : NewFilesystemAction) : String :=
  if !IsAbs a.Mountpoint then Join ["/mnt", a.Mountpoint] else a.Mountpoint

/-- `NewFilesystemAction.Run` (lines 40-84).  It returns the error and the action
as the call leaves it.  Once `os.Create` has succeeded, the deferred `f.Close()`
runs at every return. -/
def NewFilesystemAction.Run (a : NewFilesystemAction) (context : DebosContext)
    (w : World) (t : Trace) : (Option String × NewFilesystemAction) × Trace :=
  let imagePath := absPath context a.Path
  let c := issue w t (.create imagePath)
  match c.1.err with
  | some e => ((some ("failed to create image file: " ++ e), a), c.2)
  | none =>
    let tr := issue w c.2 (.exec "truncate" ["-s", a.Size, imagePath])
    match tr.1.err with
    | some e =>
      ((some ("failed to set image size: " ++ e), a), (issue w tr.2 (.close imagePath)).2)
    | none =>
      let mk := issue w tr.2 (mkfsCmd a imagePath)
      match mk.1.err with
      | some e =>
        ((some ("failed to format image: " ++ e), a), (issue w mk.2 (.close imagePath)).2)
      | none =>
        let mnt := mountDir a
        let md := issue w mk.2 (.mkdirAll mnt 0o755)
        match md.1.err with
        | some e =>
          ((some ("failed to create mountpoint: " ++ e), a),
            (issue w md.2 (.close imagePath)).2)
        | none =>
          let mo := issue w md.2 (.exec "mount" ["-o", "loop", imagePath, mnt])
          match mo.1.err with
          | some e =>
            ((some ("failed to mount image: " ++ e), a), (issue w mo.2 (.close imagePath)).2)
          | none =>
            ((none, { a with mountTarget := mnt }), (issue w mo.2 (.close imagePath)).2)

/-- `NewFilesystemAction.Cleanup` (lines 86-91).  `baseCleanup` stands for
`debos.BaseAction.Cleanup`, whose body is outside these files; the result of
`umount` is discarded. -/
def NewFilesystemAction.Cleanup (a : NewFilesystemAction) (context : DebosContext)
    (baseCleanup : BaseAction → DebosContext → Option String) (w : World) (t : Trace) :
    (Option String × NewFilesystemAction) × Trace :=
  let t1 := if a.mountTarget ≠ "" then (issue w t (.exec "umount" [a.mountTarget])).2 else t
  ((baseCleanup a.toBaseAction context, a), t1)

/-! ## Vocabulary for traces, and the worlds and jobs of the concrete runs -/

/-- A world in which every command succeeds with empty output. -/
def quietWorld : World := fun _ _ => { err := none, out := "" }

/-- A world in which every command fails with empty output. -/
def failWorld : World := fun _ _ => { err := some "exit status 1", out := "" }

/-- The commands of a complete `NewFilesystemAction.Run`, in order. -/
def runSteps (a : NewFilesystemAction) (context : DebosContext) : List Cmd :=
  [.create (absPath context a.Path),
   .exec "truncate" ["-s", a.Size, absPath context a.Path],
   mkfsCmd a (absPath context a.Path),
   .mkdirAll (mountDir a) 0o755,
   .exec "mount" ["-o", "loop", absPath context a.Path, mountDir a],
   .close (absPath context a.Path)]

/-- Every step other than the final close succeeded. -/
def stepsOk (a : NewFilesystemAction) (context : DebosContext) (evs : Trace) : Prop :=
  ∀ e ∈ evs, e.1 ≠ .close (absPath context a.Path) → e.2.err = none

/-- An event of the mount-state machinery: `losetup`, `findmnt` or `umount`. -/
def MountEvent (e : Event) : Prop :=
  e.1.prog = some "losetup" ∨ e.1.prog = some "findmnt" ∨ e.1.prog = some "umount"

/-- The first existence check of the name resolution and its answer. -/
def probe1 (a : ExportFilesystemAction) (w : World) (t : Trace) : Event :=
  (.exec "test" ["-e", "/tmp/" ++ a.Name ++ ".img"],
    w t (.exec "test" ["-e", "/tmp/" ++ a.Name ++ ".img"]))

/-- The second existence check of the name resolution and its answer. -/
def probe2 (a : ExportFilesystemAction) (w : World) (t : Trace) : Event :=
  (.exec "test" ["-e", "/tmp/" ++ a.Name],
    w (t ++ [probe1 a w t]) (.exec "test" ["-e", "/tmp/" ++ a.Name]))

/-- The glob listing of the name resolution and its answer. -/
def probe3 (a : ExportFilesystemAction) (w : World) (t : Trace) : Event :=
  (.exec "bash" ["-c", "ls /tmp/" ++ a.Name ++ "*"],
    w (t ++ [probe1 a w t] ++ [probe2 a w t]) (.exec "bash" ["-c", "ls /tmp/" ++ a.Name ++ "*"]))

/-- The three probes of the name resolution: the two existence checks and the
glob listing. -/
def isProbe (a : ExportFilesystemAction) (c : Cmd) : Prop :=
  c = .exec "test" ["-e", "/tmp/" ++ a.Name ++ ".img"] ∨
  c = .exec "test" ["-e", "/tmp/" ++ a.Name] ∨
  c = .exec "bash" ["-c", "ls /tmp/" ++ a.Name ++ "*"]

/-- An event of the shrink step: `blkid`, `e2fsck` or `resize2fs`. -/
def TrimEvent (e : Event) : Prop :=
  e.1.prog = some "blkid" ∨ e.1.prog = some "e2fsck" ∨ e.1.prog = some "resize2fs"

/-- An export job by symbolic name, with trimming. -/
def diskJob : ExportFilesystemAction :=
  { Action := "export-filesystem", Description := "", Source := "", Name := "disk",
    Destination := "/out/final.img", Trim := true }

/-- The build context of the concrete runs. -/
def artContext : DebosContext := { Artifactdir := "/art" }

/-- A world in which `/tmp/disk.img` is an ext4 image on `/dev/loop0`, mounted at
`/mnt/work`, and the mountpoint is busy: `umount` and `losetup -d` fail. -/
def busyWorld : World := fun _ c =>
  if c = .exec "losetup" ["-j", "/tmp/disk.img"] then
    { err := none, out := "/dev/loop0: [2049]:131 (/tmp/disk.img)\n" }
  else if c = .exec "findmnt" ["-n", "-o", "TARGET", "/dev/loop0"] then
    { err := none, out := "/mnt/work\n" }
  else if c = .exec "umount" ["/mnt/work"] then { err := some "exit status 32", out := "" }
  else if c = .exec "losetup" ["-d", "/dev/loop0"] then
    { err := some "exit status 1", out := "" }
  else if c = .exec "blkid" ["-s", "TYPE", "-o", "value", "/tmp/disk.img"] then
    { err := none, out := "ext4\n" }
  else { err := none, out := "" }

/-- A world in which the listing of `losetup -j /tmp/disk.img` has a second
line made of one space. -/
def blankLineWorld : World := fun _ c =>
  if c = .exec "losetup" ["-j", "/tmp/disk.img"] then
    { err := none, out := "/dev/loop0: [2049]:131 (/tmp/disk.img)\n \n" }
  else if c = .exec "blkid" ["-s", "TYPE", "-o", "value", "/tmp/disk.img"] then
    { err := none, out := "ext4\n" }
  else { err := none, out := "" }

/-- A world in which `blkid` reports an xfs image and nothing is mounted. -/
def xfsWorld : World := fun _ c =>
  if c = .exec "blkid" ["-s", "TYPE", "-o", "value", "/tmp/disk.img"] then
    { err := none, out := "xfs\n" }
  else { err := none, out := "" }

/-- A command of the force-unmount that tears something down: `umount`, or
`losetup -d`. -/
def isTeardown : Cmd → Bool
  | .exec "umount" _ => true
  | .exec "losetup" ("-d" :: _) => true
  | _ => false

/-- An export job by symbolic name, without trimming, to a relative
destination. -/
def plainJob : ExportFilesystemAction :=
  { Action := "export-filesystem", Description := "", Source := "", Name := "disk",
    Destination := "out.img", Trim := false }

/-- A provisioning job with a label on a type without label support. -/
def btrfsJob : NewFilesystemAction :=
  { Action := "new-filesystem", Description := "", Path := "d.img", Size := "1G",
    Filesystem := "btrfs", Label := "x", Mountpoint := "w", Options := "-f  -q",
    mountTarget := "" }

/-- A provisioning job: a labelled ext4 image mounted at `/mnt/work`. -/
def ext4Job : NewFilesystemAction :=
  { Action := "new-filesystem", Description := "", Path := "/tmp/disk.img", Size := "256M",
    Filesystem := "ext4", Label := "root", Mountpoint := "/mnt/work", Options := "-q  -F",
    mountTarget := "" }

/-! ## Facts about the library functions -/

theorem Fields_empty : Fields "" = [] := by decide

/-- One more unit of fuel than the bytes left to read changes nothing: the fuel
of `cleanLoop` never runs out before the path is consumed. -/
theorem cleanLoop_fuel_succ (rooted : Bool) (f : Nat) :
    ∀ (rest out : List Char) (dd : Nat), rest.length ≤ f →
      cleanLoop rooted (f + 1) rest out dd = cleanLoop rooted f rest out dd := by
  induction f with
  | zero =>
    intro rest out dd h
    have : rest = [] := List.length_eq_zero.mp (Nat.le_zero.mp h)
    subst this
    simp [cleanLoop]
  | succ f ih =>
    intro rest out dd h
    cases rest with
    | nil => simp [cleanLoop]
    | cons c r =>
      have hr : r.length ≤ f := by simpa using h
      have ht : r.tail.length ≤ f := by simp; omega
      have ih1 := fun out dd => ih r out dd hr
      have ih2 := fun out dd => ih r.tail out dd ht
      by_cases hc : c = '/'
      · simp only [cleanLoop, hc, if_true, ih1]
      · have hp : (c != '/') = true := by simpa using hc
        have hd : (c :: r).dropWhile (fun x => x != '/') = r.dropWhile (fun x => x != '/') := by
          simp [List.dropWhile_cons, hp]
        have hdl : (r.dropWhile (fun x => x != '/')).length ≤ f :=
          le_trans (List.dropWhile_sublist _).length_le hr
        have ih3 := fun out dd => ih (r.dropWhile (fun x => x != '/')) out dd hdl
        simp only [cleanLoop, hc, if_false, hd, ih1, ih2, ih3]

/-- Any fuel of at least the number of bytes left gives the same result. -/
theorem cleanLoop_fuel_add (rooted : Bool) (f k : Nat) (rest out : List Char) (dd : Nat)
    (h : rest.length ≤ f) :
    cleanLoop rooted (f + k) rest out dd = cleanLoop rooted f rest out dd := by
  induction k with
  | zero => rfl
  | succ k ih =>
    rw [← Nat.add_assoc, cleanLoop_fuel_succ rooted (f + k) rest out dd (by omega), ih]

/-- The model of `path.Clean` and `path.Join` on examples from the Go
documentation and tests. -/
theorem Clean_Join_examples :
    Clean "" = "." ∧ Clean "/" = "/" ∧ Clean "abc/" = "abc" ∧ Clean "//abc" = "/abc" ∧
    Clean "abc/def/../../.." = ".." ∧ Clean "/abc/def/../.." = "/" ∧
    Clean "abc/../../././../def" = "../../def" ∧ Clean "/../a/b/../././/c" = "/a/c" ∧
    Join ["a", "b"] = "a/b" ∧ Join ["a", ""] = "a" ∧ Join ["", ""] = "" ∧
    Join ["a", "../../b"] = "../b" ∧ Join ["/mnt", "work/"] = "/mnt/work" := by
  decide

theorem Clean_result_ne_empty (out : List Char) :
    (if out.length = 0 then "." else String.mk out) ≠ "" := by
  cases out with
  | nil => decide
  | cons c cs =>
    rw [if_neg (by simp)]
    intro h
    have := congrArg String.length h
    simp at this

theorem Clean_ne_empty (p : String) : Clean p ≠ "" := by
  unfold Clean
  by_cases hp : p = ""
  · rw [if_pos hp]; decide
  · rw [if_neg hp]
    exact Clean_result_ne_empty _

theorem Join_ne_empty_of_ne (e : String) (es : List String) (he : e ≠ "") :
    Join (e :: es) ≠ "" := by
  unfold Join
  have hl : e.length ≠ 0 := by
    intro h
    apply he
    cases e with
    | mk l =>
      have : l = [] := List.length_eq_zero.mp h
      subst this
      rfl
  have : (List.map String.length (e :: es)).sum ≠ 0 := by
    simp only [List.map_cons, List.sum_cons]
    omega
  rw [if_neg this]
  exact Clean_ne_empty _

theorem IsAbs_ne_empty (p : String) (h : IsAbs p = true) : p ≠ "" := by
  intro hp
  subst hp
  simp [IsAbs] at h

/-! ## Claims about `ExportFilesystemAction.Verify` -/

/-- C1: `ExportFilesystemAction.Verify` returns an error exactly when Source and
Name are both empty or Destination is empty; a job with empty Source and Name
fails whatever its destination; the call issues no command (the trace is
unchanged) and leaves every field of the action as it was. -/
theorem C1_verify_error_iff (a : ExportFilesystemAction) (context : DebosContext)
    (w : World) (t : Trace) :
    ((a.Verify context w t).1.1 ≠ none ↔
      ((a.Source = "" ∧ a.Name = "") ∨ a.Destination = "")) ∧
    (∀ d : String,
      (ExportFilesystemAction.Verify { a with Source := "", Name := "", Destination := d }
        context w t).1.1 =
        some "export-filesystem: either source or name must be specified") ∧
    (a.Verify context w t).2 = t ∧
    (a.Verify context w t).1.2 = a := by
  refine ⟨?_, ?_, ?_, ?_⟩
  · unfold ExportFilesystemAction.Verify
    by_cases h1 : a.Source = "" ∧ a.Name = ""
    · simp [h1]
    · by_cases h2 : a.Destination = ""
      · simp [h1, h2]
      · simp [h1, h2]
  · intro d
    simp [ExportFilesystemAction.Verify]
  · unfold ExportFilesystemAction.Verify
    split
    · rfl
    · split <;> rfl
  · unfold ExportFilesystemAction.Verify
    split
    · rfl
    · split <;> rfl

/-! ## Claims about `NewFilesystemAction` -/

theorem mkfsArgs_eq (a : NewFilesystemAction) (imagePath : String) :
    mkfsArgs a imagePath =
      (if a.Label ≠ "" ∧ (HasPrefix a.Filesystem "ext" = true ∨ a.Filesystem = "xfs" ∨
          a.Filesystem = "vfat" ∨ a.Filesystem = "ntfs")
        then ["-L", a.Label] else []) ++ Fields a.Options ++ [imagePath] := by
  unfold mkfsArgs
  by_cases hl : a.Label = ""
  · by_cases ho : a.Options = ""
    · simp [hl, ho, Fields_empty]
    · simp [hl, ho]
  · by_cases hf : HasPrefix a.Filesystem "ext" = true ∨ a.Filesystem = "xfs" ∨
        a.Filesystem = "vfat" ∨ a.Filesystem = "ntfs"
    · by_cases ho : a.Options = ""
      · simp [hl, ho, hf, Fields_empty]
      · simp [hl, ho, hf]
    · by_cases ho : a.Options = ""
      · simp [hl, ho, hf, Fields_empty]
      · simp [hl, ho, hf]

/-- C7: once the image file is created and sized, the third thing
`NewFilesystemAction.Run` does is run the program `mkfs.` followed by the
filesystem type, with exactly these arguments: `-L label` when the label is
non-empty and the type starts with `ext` or is `xfs`, `vfat` or `ntfs` (nothing
otherwise, for any other type), then the white-space-split fields of the options
in order, then the image path last. -/
theorem C7_mkfs_command (a : NewFilesystemAction) (context : DebosContext)
    (w : World) (t : Trace)
    (hcreate : (w t (.create (absPath context a.Path))).err = none)
    (htrunc : (w (t ++ [(.create (absPath context a.Path),
        w t (.create (absPath context a.Path)))])
        (.exec "truncate" ["-s", a.Size, absPath context a.Path])).err = none) :
    (((a.Run context w t).2.drop t.length).map Prod.fst).get? 2 =
      some (.exec ("mkfs." ++ a.Filesystem)
        ((if a.Label ≠ "" ∧ (HasPrefix a.Filesystem "ext" = true ∨ a.Filesystem = "xfs" ∨
            a.Filesystem = "vfat" ∨ a.Filesystem = "ntfs")
          then ["-L", a.Label] else []) ++ Fields a.Options ++ [absPath context a.Path])) := by
  rw [← mkfsArgs_eq]
  unfold NewFilesystemAction.Run
  simp only [issue, hcreate, htrunc]
  split
  · simp [mkfsCmd]
  · split
    · simp [mkfsCmd]
    · split <;> simp [mkfsCmd]

theorem mountDir_ne_empty (a : NewFilesystemAction) : mountDir a ≠ "" := by
  unfold mountDir
  by_cases h : IsAbs a.Mountpoint = true
  · simp only [h, Bool.not_true, Bool.false_eq_true, if_false]
    exact IsAbs_ne_empty _ h
  · simp only [h, Bool.not_false, if_true]
    exact Join_ne_empty_of_ne "/mnt" _ (by decide)

theorem NewFilesystemAction.Run_cases (a : NewFilesystemAction) (context : DebosContext)
    (w : World) (t : Trace) :
    ((a.Run context w t).1.1 = none ∧
      (a.Run context w t).1.2 = { a with mountTarget := mountDir a } ∧
      ((a.Run context w t).2.drop t.length).map Prod.fst = runSteps a context ∧
      stepsOk a context ((a.Run context w t).2.drop t.length)) ∨
    ((a.Run context w t).1.1 ≠ none ∧
      (a.Run context w t).1.2 = a ∧
      ¬ (((a.Run context w t).2.drop t.length).map Prod.fst = runSteps a context ∧
        stepsOk a context ((a.Run context w t).2.drop t.length))) := by
  unfold NewFilesystemAction.Run runSteps stepsOk
  simp only [issue]
  generalize absPath context a.Path = img
  generalize w t (.create img) = r1
  generalize w (t ++ [(.create img, r1)]) (.exec "truncate" ["-s", a.Size, img]) = r2
  generalize w (t ++ [(.create img, r1)] ++ [(.exec "truncate" ["-s", a.Size, img], r2)])
    (mkfsCmd a img) = r3
  generalize w (t ++ [(.create img, r1)] ++ [(.exec "truncate" ["-s", a.Size, img], r2)] ++
    [(mkfsCmd a img, r3)]) (.mkdirAll (mountDir a) 0o755) = r4
  generalize w (t ++ [(.create img, r1)] ++ [(.exec "truncate" ["-s", a.Size, img], r2)] ++
    [(mkfsCmd a img, r3)] ++ [(.mkdirAll (mountDir a) 0o755, r4)])
    (.exec "mount" ["-o", "loop", img, mountDir a]) = r5
  rcases r1 with ⟨_ | e1, o1⟩
  swap
  · right; simp [runSteps]
  rcases r2 with ⟨_ | e2, o2⟩
  swap
  · right; simp [runSteps]
  rcases r3 with ⟨_ | e3, o3⟩
  swap
  · right; simp [runSteps]
  rcases r4 with ⟨_ | e4, o4⟩
  swap
  · right; simp [runSteps]
  rcases r5 with ⟨_ | e5, o5⟩
  · left
    simp [runSteps, stepsOk]
  · right
    simp [runSteps, stepsOk]

/-- C8: starting from an action whose `mountTarget` is empty (as
`NewNewFilesystemAction` makes it), after `Run` the recorded `mountTarget` is
non-empty exactly when `Run` returned no error; `Run` returns no error exactly
when it issued all of create, truncate, mkfs, mkdir, mount (and the closing of
the file) and each of the five succeeded; the record is then the resolved
mountpoint and `Cleanup` issues exactly one command, `umount` of that target;
after a failed `Run`, or with no `Run` at all, `Cleanup` issues nothing; and the
result of `Cleanup` is that of the base action whatever the world answers. -/
theorem C8_mount_record (a : NewFilesystemAction) (context : DebosContext)
    (baseCleanup : BaseAction → DebosContext → Option String) (w : World) (t : Trace)
    (hfresh : a.mountTarget = "") :
    ((a.Run context w t).1.2.mountTarget ≠ "" ↔ (a.Run context w t).1.1 = none) ∧
    ((a.Run context w t).1.1 = none ↔
      (((a.Run context w t).2.drop t.length).map Prod.fst = runSteps a context ∧
        stepsOk a context ((a.Run context w t).2.drop t.length))) ∧
    ((a.Run context w t).1.1 = none →
      (a.Run context w t).1.2.mountTarget = mountDir a ∧
      ((a.Run context w t).1.2.Cleanup context baseCleanup w (a.Run context w t).2).2 =
        (a.Run context w t).2 ++
          [(.exec "umount" [mountDir a],
            w (a.Run context w t).2 (.exec "umount" [mountDir a]))]) ∧
    ((a.Run context w t).1.1 ≠ none →
      ((a.Run context w t).1.2.Cleanup context baseCleanup w (a.Run context w t).2).2 =
        (a.Run context w t).2) ∧
    (a.Cleanup context baseCleanup w t).2 = t ∧
    (∀ (b : NewFilesystemAction) (w1 : World) (t1 : Trace),
      (b.Cleanup context baseCleanup w1 t1).1.1 = baseCleanup b.toBaseAction context) := by
  have hm := mountDir_ne_empty a
  rcases NewFilesystemAction.Run_cases a context w t with ⟨h1, h2, h3, h4⟩ | ⟨h1, h2, h3⟩
  · refine ⟨?_, ?_, ?_, ?_, ?_, ?_⟩
    · rw [h2]; simp [h1, hm]
    · simp [h1, h3, h4]
    · intro _
      rw [h2]
      simp [NewFilesystemAction.Cleanup, issue, hm]
    · intro h; exact absurd h1 h
    · simp [NewFilesystemAction.Cleanup, hfresh]
    · intro b w1 t1; rfl
  · refine ⟨?_, ?_, ?_, ?_, ?_, ?_⟩
    · rw [h2]; simp [h1, hfresh]
    · constructor
      · intro h; exact absurd h h1
      · intro h; exact absurd h h3
    · intro h; exact absurd h h1
    · intro _
      rw [h2]
      simp [NewFilesystemAction.Cleanup, hfresh]
    · simp [NewFilesystemAction.Cleanup, hfresh]
    · intro b w1 t1; rfl

/-! ## The shape of the traces of `ExportFilesystemAction.Run` -/

theorem unmountOne_trace (w : World) (loopdev : String) (t : Trace) :
    ∃ evs, unmountOne w loopdev t = t ++ evs ∧ ∀ e ∈ evs, MountEvent e := by
  unfold unmountOne
  simp only [issue]
  generalize w t (.exec "findmnt" ["-n", "-o", "TARGET", loopdev]) = r1
  by_cases hm : TrimSpace r1.out = ""
  · simp only [hm, ne_eq, not_true_eq_false, if_false]
    simp only [List.append_assoc]
    refine ⟨_, rfl, ?_⟩
    intro e he
    simp only [List.mem_append, List.mem_singleton] at he
    rcases he with rfl | rfl
    · right; left; rfl
    · left; rfl
  · simp only [hm, ne_eq, not_false_eq_true, if_true]
    simp only [List.append_assoc]
    refine ⟨_, rfl, ?_⟩
    intro e he
    simp only [List.mem_append, List.mem_singleton] at he
    rcases he with rfl | rfl | rfl
    · right; left; rfl
    · right; right; rfl
    · left; rfl

theorem unmountLines_trace (w : World) (lines : List String) (t : Trace) :
    ∃ evs, (unmountLines w lines t).2 = t ++ evs ∧ ∀ e ∈ evs, MountEvent e := by
  induction lines generalizing t with
  | nil => exact ⟨[], by simp [unmountLines], by simp⟩
  | cons line rest ih =>
    unfold unmountLines
    by_cases hl : line = ""
    · rw [if_pos hl]; exact ih t
    · rw [if_neg hl]
      cases hd : loopDevice line with
      | goPanic => exact ⟨[], by simp, by simp⟩
      | ret loopdev =>
        simp only []
        obtain ⟨evs1, h1, h2⟩ := unmountOne_trace w loopdev t
        obtain ⟨evs2, h3, h4⟩ := ih (unmountOne w loopdev t)
        refine ⟨evs1 ++ evs2, ?_, ?_⟩
        · rw [h3, h1, List.append_assoc]
        · intro e he
          rcases List.mem_append.mp he with he | he
          · exact h2 e he
          · exact h4 e he

theorem unmountImage_trace (p : String) (w : World) (t : Trace) :
    ∃ evs, (unmountImage p w t).2 = t ++ evs ∧ ∀ e ∈ evs, MountEvent e := by
  unfold unmountImage
  simp only [issue]
  generalize w t (.exec "losetup" ["-j", p]) = r
  by_cases h : r.err ≠ none ∨ r.out = ""
  · rw [if_pos h]
    refine ⟨[_], rfl, ?_⟩
    intro e he
    simp only [List.mem_singleton] at he
    subst he
    left; rfl
  · rw [if_neg h]
    obtain ⟨evs, h1, h2⟩ := unmountLines_trace w (Split r.out '\n')
      (t ++ [(.exec "losetup" ["-j", p], r)])
    refine ⟨(.exec "losetup" ["-j", p], r) :: evs, ?_, ?_⟩
    · cases hu : unmountLines w (Split r.out '\n') (t ++ [(.exec "losetup" ["-j", p], r)]) with
      | mk o t2 =>
        rw [hu] at h1
        simp only at h1
        subst h1
        cases o <;> simp
    · intro e he
      simp only [List.mem_cons] at he
      rcases he with rfl | he
      · left; rfl
      · exact h2 e he

theorem unmountPhase_trace (p : String) (w : World) (t : Trace) :
    ∃ evs, (unmountPhase p w t).2 = t ++ evs ∧ ∀ e ∈ evs, MountEvent e := by
  unfold unmountPhase
  have hi : (isImageMounted p w t).2 = t ++ [(.exec "losetup" ["-j", p],
      w t (.exec "losetup" ["-j", p]))] := by
    unfold isImageMounted
    simp only [issue]
    split <;> rfl
  by_cases hm : (isImageMounted p w t).1 = true
  · rw [if_pos hm]
    obtain ⟨evs, h1, h2⟩ := unmountImage_trace p w (isImageMounted p w t).2
    refine ⟨(.exec "losetup" ["-j", p], w t (.exec "losetup" ["-j", p])) :: evs, ?_, ?_⟩
    · cases hu : unmountImage p w (isImageMounted p w t).2 with
      | mk o t2 =>
        rw [hu] at h1
        simp only at h1
        subst h1
        rw [hi]
        cases o <;> simp
    · intro e he
      simp only [List.mem_cons] at he
      rcases he with rfl | he
      · left; rfl
      · exact h2 e he
  · rw [if_neg hm]
    refine ⟨[_], hi, ?_⟩
    intro e he
    simp only [List.mem_singleton] at he
    subst he
    left; rfl

theorem resolveSource_explicit (a : ExportFilesystemAction) (w : World) (t : Trace)
    (h : ¬ (a.Source = "" ∧ a.Name ≠ "")) : resolveSource a w t = (.ok a.Source, t) := by
  unfold resolveSource
  rw [if_neg h]

theorem resolveSource_first (a : ExportFilesystemAction) (w : World) (t : Trace)
    (hs : a.Source = "") (hn : a.Name ≠ "") (h1 : (probe1 a w t).2.err = none) :
    resolveSource a w t = (.ok ("/tmp/" ++ a.Name ++ ".img"), t ++ [probe1 a w t]) := by
  unfold probe1 at h1
  simp only at h1
  unfold resolveSource
  rw [if_pos ⟨hs, hn⟩]
  simp [tryCandidates, issue, h1, probe1]

theorem resolveSource_second (a : ExportFilesystemAction) (w : World) (t : Trace)
    (hs : a.Source = "") (hn : a.Name ≠ "") (h1 : (probe1 a w t).2.err ≠ none)
    (h2 : (probe2 a w t).2.err = none) :
    resolveSource a w t = (.ok ("/tmp/" ++ a.Name), t ++ [probe1 a w t] ++ [probe2 a w t]) := by
  unfold probe2 at h2
  unfold probe1 at h1 h2
  simp only at h1 h2
  unfold resolveSource
  rw [if_pos ⟨hs, hn⟩]
  simp [tryCandidates, issue, h1, h2, probe1, probe2]

theorem resolveSource_glob (a : ExportFilesystemAction) (w : World) (t : Trace)
    (hs : a.Source = "") (hn : a.Name ≠ "") (h1 : (probe1 a w t).2.err ≠ none)
    (h2 : (probe2 a w t).2.err ≠ none) (h3 : (probe3 a w t).2.err = none)
    (f0 : String) (fs : List String) (hf : Fields (probe3 a w t).2.out = f0 :: fs) :
    resolveSource a w t =
      (.ok f0, t ++ [probe1 a w t] ++ [probe2 a w t] ++ [probe3 a w t]) := by
  unfold probe3 at h3 hf
  unfold probe2 at h2 h3 hf
  unfold probe1 at h1 h2 h3 hf
  simp only [List.append_assoc, List.singleton_append] at h1 h2 h3 hf
  unfold resolveSource
  rw [if_pos ⟨hs, hn⟩]
  simp [tryCandidates, globFallback, issue, h1, h2, h3, hf, probe1, probe2, probe3]

theorem resolveSource_none (a : ExportFilesystemAction) (w : World) (t : Trace)
    (hs : a.Source = "") (hn : a.Name ≠ "") (h1 : (probe1 a w t).2.err ≠ none)
    (h2 : (probe2 a w t).2.err ≠ none)
    (h3 : (probe3 a w t).2.err ≠ none ∨ Fields (probe3 a w t).2.out = []) :
    resolveSource a w t =
      (.error ("export-filesystem: could not find a file for name '" ++ a.Name ++ "'"),
        t ++ [probe1 a w t] ++ [probe2 a w t] ++ [probe3 a w t]) := by
  unfold probe3 at h3
  unfold probe2 at h2 h3
  unfold probe1 at h1 h2 h3
  simp only [List.append_assoc, List.singleton_append] at h1 h2 h3
  unfold resolveSource
  rw [if_pos ⟨hs, hn⟩]
  rcases h3 with h3 | h3
  · simp [tryCandidates, globFallback, issue, h1, h2, h3, hs, probe1, probe2, probe3]
  · by_cases h4 : (w (t ++ [(.exec "test" ["-e", "/tmp/" ++ a.Name ++ ".img"],
        w t (.exec "test" ["-e", "/tmp/" ++ a.Name ++ ".img"])),
        (.exec "test" ["-e", "/tmp/" ++ a.Name],
          w (t ++ [(.exec "test" ["-e", "/tmp/" ++ a.Name ++ ".img"],
            w t (.exec "test" ["-e", "/tmp/" ++ a.Name ++ ".img"]))])
            (.exec "test" ["-e", "/tmp/" ++ a.Name]))])
        (.exec "bash" ["-c", "ls /tmp/" ++ a.Name ++ "*"])).err = none
    · simp [tryCandidates, globFallback, issue, h1, h2, h3, h4, hs, probe1, probe2, probe3]
    · simp [tryCandidates, globFallback, issue, h1, h2, h4, hs, probe1, probe2, probe3]

theorem resolveSource_trace (a : ExportFilesystemAction) (w : World) (t : Trace) :
    ∃ evs, (resolveSource a w t).2 = t ++ evs ∧ ∀ e ∈ evs, isProbe a e.1 := by
  have hp1 : isProbe a (probe1 a w t).1 := Or.inl rfl
  have hp2 : isProbe a (probe2 a w t).1 := Or.inr (Or.inl rfl)
  have hp3 : isProbe a (probe3 a w t).1 := Or.inr (Or.inr rfl)
  by_cases h : a.Source = "" ∧ a.Name ≠ ""
  · obtain ⟨hs, hn⟩ := h
    by_cases h1 : (probe1 a w t).2.err = none
    · rw [resolveSource_first a w t hs hn h1]
      refine ⟨_, rfl, ?_⟩
      intro e he
      simp only [List.mem_singleton] at he
      subst he; exact hp1
    · by_cases h2 : (probe2 a w t).2.err = none
      · rw [resolveSource_second a w t hs hn h1 h2, List.append_assoc]
        refine ⟨_, rfl, ?_⟩
        intro e he
        simp only [List.mem_append, List.mem_singleton] at he
        rcases he with rfl | rfl
        · exact hp1
        · exact hp2
      · have hall : ∀ e ∈ [probe1 a w t] ++ ([probe2 a w t] ++ [probe3 a w t]),
            isProbe a e.1 := by
          intro e he
          simp only [List.mem_append, List.mem_singleton] at he
          rcases he with rfl | rfl | rfl
          · exact hp1
          · exact hp2
          · exact hp3
        by_cases h3 : (probe3 a w t).2.err = none
        · cases hf : Fields (probe3 a w t).2.out with
          | nil =>
            rw [resolveSource_none a w t hs hn h1 h2 (Or.inr hf), List.append_assoc,
              List.append_assoc]
            exact ⟨_, rfl, hall⟩
          | cons f0 fs =>
            rw [resolveSource_glob a w t hs hn h1 h2 h3 f0 fs hf, List.append_assoc,
              List.append_assoc]
            exact ⟨_, rfl, hall⟩
        · rw [resolveSource_none a w t hs hn h1 h2 (Or.inl h3), List.append_assoc,
            List.append_assoc]
          exact ⟨_, rfl, hall⟩
  · rw [resolveSource_explicit a w t h]
    exact ⟨[], by simp, by simp⟩

theorem shrinkPhase_trace (p : String) (w : World) (t : Trace) :
    (HasPrefix (TrimSpace (if (w t (.exec "blkid" ["-s", "TYPE", "-o", "value", p])).err ≠ none
        then "" else (w t (.exec "blkid" ["-s", "TYPE", "-o", "value", p])).out)) "ext" = false ∧
      shrinkPhase p w t = t ++ [(.exec "blkid" ["-s", "TYPE", "-o", "value", p],
        w t (.exec "blkid" ["-s", "TYPE", "-o", "value", p]))]) ∨
    (HasPrefix (TrimSpace (if (w t (.exec "blkid" ["-s", "TYPE", "-o", "value", p])).err ≠ none
        then "" else (w t (.exec "blkid" ["-s", "TYPE", "-o", "value", p])).out)) "ext" = true ∧
      ∃ r1 r2, shrinkPhase p w t = t ++ [(.exec "blkid" ["-s", "TYPE", "-o", "value", p],
        w t (.exec "blkid" ["-s", "TYPE", "-o", "value", p])),
        (.exec "e2fsck" ["-f", "-y", p], r1), (.exec "resize2fs" ["-M", p], r2)]) := by
  unfold shrinkPhase runBlkidType
  simp only [issue]
  generalize w t (.exec "blkid" ["-s", "TYPE", "-o", "value", p]) = b
  rcases b with ⟨_ | e, o⟩
  · simp only [ne_eq, not_true_eq_false, if_false]
    by_cases h : HasPrefix (TrimSpace o) "ext" = true
    · right
      rw [if_pos h]
      simp only [List.append_assoc, List.singleton_append]
      exact ⟨h, _, _, rfl⟩
    · left
      simp only [Bool.not_eq_true] at h
      refine ⟨h, ?_⟩
      simp [h]
  · left
    simp only [ne_eq, reduceCtorEq, not_false_eq_true, if_true]
    refine ⟨by decide, ?_⟩
    rw [if_neg (by decide)]

theorem copyPhase_trace (sp dp : String) (w : World) (t : Trace) :
    (copyPhase sp dp w t).2 = t ++ [(ddCmd sp dp, w t (ddCmd sp dp))] := by
  unfold copyPhase
  simp only [issue]
  split <;> rfl

theorem copyPhase_error_iff (sp dp : String) (w : World) (t : Trace) :
    (copyPhase sp dp w t).1 ≠ none ↔ (w t (ddCmd sp dp)).err ≠ none := by
  unfold copyPhase
  simp only [issue]
  cases h : (w t (ddCmd sp dp)).err <;> simp

theorem exportFrom_cases (a : ExportFilesystemAction) (context : DebosContext) (src : String)
    (w : World) (t : Trace) :
    (a.Trim = false ∧
      exportFrom a context src w t =
        (.ret (copyPhase (absPath context src) (absPath context a.Destination) w t).1,
          (copyPhase (absPath context src) (absPath context a.Destination) w t).2)) ∨
    (a.Trim = true ∧ (unmountPhase (absPath context src) w t).1 = .goPanic ∧
      exportFrom a context src w t = (.goPanic, (unmountPhase (absPath context src) w t).2)) ∨
    (a.Trim = true ∧ (unmountPhase (absPath context src) w t).1 = .ret () ∧
      exportFrom a context src w t =
        (.ret (copyPhase (absPath context src) (absPath context a.Destination) w
            (shrinkPhase (absPath context src) w (unmountPhase (absPath context src) w t).2)).1,
          (copyPhase (absPath context src) (absPath context a.Destination) w
            (shrinkPhase (absPath context src) w (unmountPhase (absPath context src) w t).2)).2)) := by
  unfold exportFrom
  cases ht : a.Trim with
  | false => left; simp
  | true =>
    right
    simp only [if_true, trimPhase]
    cases hu : unmountPhase (absPath context src) w t with
    | mk o t2 =>
      cases o with
      | goPanic => left; simp
      | ret u => right; simp

theorem shrinkPhase_events (p : String) (w : World) (t : Trace) :
    ∃ evs, shrinkPhase p w t = t ++ evs ∧ ∀ e ∈ evs, TrimEvent e := by
  rcases shrinkPhase_trace p w t with ⟨-, h⟩ | ⟨-, r1, r2, h⟩
  · refine ⟨_, h, ?_⟩
    intro e he
    simp only [List.mem_singleton] at he
    subst he
    left; rfl
  · refine ⟨_, h, ?_⟩
    intro e he
    simp only [List.mem_cons, List.mem_singleton, List.not_mem_nil, or_false] at he
    rcases he with rfl | rfl | rfl
    · left; rfl
    · right; left; rfl
    · right; right; rfl

theorem ddCmd_eq (sp dp : String) :
    ddCmd sp dp = .exec "dd" ["if=" ++ sp, "of=" ++ dp, "bs=4194304"] := by
  unfold ddCmd
  have : "bs=" ++ FormatInt (4 * 1024 * 1024) = "bs=4194304" := by decide
  simp only [this]

theorem exportFrom_events (a : ExportFilesystemAction) (context : DebosContext) (src : String)
    (w : World) (t : Trace) :
    ∃ evs, (exportFrom a context src w t).2 = t ++ evs ∧
      ∀ e ∈ evs, MountEvent e ∨ TrimEvent e ∨
        e.1 = ddCmd (absPath context src) (absPath context a.Destination) := by
  rcases exportFrom_cases a context src w t with ⟨-, h⟩ | ⟨-, -, h⟩ | ⟨-, -, h⟩
  · rw [h, copyPhase_trace]
    refine ⟨_, rfl, ?_⟩
    intro e he
    simp only [List.mem_singleton] at he
    subst he
    right; right; rfl
  · rw [h]
    obtain ⟨evs, h1, h2⟩ := unmountPhase_trace (absPath context src) w t
    exact ⟨evs, h1, fun e he => Or.inl (h2 e he)⟩
  · rw [h]
    simp only [copyPhase_trace]
    obtain ⟨evs1, h1, h2⟩ := unmountPhase_trace (absPath context src) w t
    obtain ⟨evs2, h3, h4⟩ := shrinkPhase_events (absPath context src) w
      (unmountPhase (absPath context src) w t).2
    rw [h3, h1]
    simp only [List.append_assoc]
    refine ⟨_, rfl, ?_⟩
    intro e he
    simp only [List.mem_append, List.mem_singleton] at he
    rcases he with he | he | rfl
    · exact Or.inl (h2 e he)
    · exact Or.inr (Or.inl (h4 e he))
    · right; right
      rw [← List.append_assoc, ← h1, ← h3]

theorem exportFrom_last (a : ExportFilesystemAction) (context : DebosContext) (src : String)
    (w : World) (t : Trace) (h : (exportFrom a context src w t).1 ≠ .goPanic) :
    ∃ t2, (exportFrom a context src w t).2 =
        t2 ++ [(ddCmd (absPath context src) (absPath context a.Destination),
          w t2 (ddCmd (absPath context src) (absPath context a.Destination)))] ∧
      ((exportFrom a context src w t).1 = .ret none ↔
        (w t2 (ddCmd (absPath context src) (absPath context a.Destination))).err = none) := by
  rcases exportFrom_cases a context src w t with ⟨-, h1⟩ | ⟨-, -, h1⟩ | ⟨-, -, h1⟩
  · rw [h1]
    refine ⟨t, copyPhase_trace _ _ _ _, ?_⟩
    have := copyPhase_error_iff (absPath context src) (absPath context a.Destination) w t
    simp only [Outcome.ret.injEq]
    constructor
    · intro h2
      by_contra h3
      exact (this.mpr h3) h2
    · intro h2
      by_contra h3
      exact (this.mp h3) h2
  · rw [h1] at h
    exact absurd rfl h
  · rw [h1]
    refine ⟨_, copyPhase_trace _ _ _ _, ?_⟩
    have := copyPhase_error_iff (absPath context src) (absPath context a.Destination) w
      (shrinkPhase (absPath context src) w (unmountPhase (absPath context src) w t).2)
    simp only [Outcome.ret.injEq]
    constructor
    · intro h2
      by_contra h3
      exact (this.mpr h3) h2
    · intro h2
      by_contra h3
      exact (this.mp h3) h2

theorem IsAbs_tmp (x : String) : IsAbs ("/tmp/" ++ x) = true := by
  unfold IsAbs
  simp [String.toList, String.data_append]

theorem absPath_tmp (context : DebosContext) (x : String) :
    absPath context ("/tmp/" ++ x) = "/tmp/" ++ x := by
  unfold absPath
  simp [IsAbs_tmp]

theorem Run_shape (a : ExportFilesystemAction) (context : DebosContext) (w : World)
    (t : Trace) :
    ∃ probes, (resolveSource a w t).2 = t ++ probes ∧ (∀ e ∈ probes, isProbe a e.1) ∧
      ((∃ msg, (resolveSource a w t).1 = .error msg ∧
          a.Run context w t = (.ret (some msg), t ++ probes)) ∨
       (∃ src, (resolveSource a w t).1 = .ok src ∧
          a.Run context w t = exportFrom a context src w (t ++ probes))) := by
  obtain ⟨probes, h1, h2⟩ := resolveSource_trace a w t
  refine ⟨probes, h1, h2, ?_⟩
  unfold ExportFilesystemAction.Run
  cases hr : resolveSource a w t with
  | mk o t1 =>
    rw [hr] at h1
    simp only at h1
    subst h1
    cases o with
    | error msg => left; exact ⟨msg, rfl, rfl⟩
    | ok src => right; exact ⟨src, rfl, rfl⟩

theorem isProbe_prog (a : ExportFilesystemAction) (c : Cmd) (h : isProbe a c) :
    c.prog = some "test" ∨ c.prog = some "bash" := by
  rcases h with rfl | rfl | rfl
  · left; rfl
  · left; rfl
  · right; rfl

/-! ## Claims about `ExportFilesystemAction.Run` -/

/-- C9: with Source empty and Name non-empty, when both existence checks fail
and the glob listing fails or lists no white-space-separated entry, `Run` returns
the not-found error and the only commands it has issued are the three probes:
no `losetup`, `blkid`, `e2fsck`, `resize2fs`, `umount` or `dd` follows. -/
theorem C9_unresolved_name_fails (a : ExportFilesystemAction) (context : DebosContext)
    (w : World) (t : Trace) (hs : a.Source = "") (hn : a.Name ≠ "")
    (h1 : (probe1 a w t).2.err ≠ none) (h2 : (probe2 a w t).2.err ≠ none)
    (h3 : (probe3 a w t).2.err ≠ none ∨ Fields (probe3 a w t).2.out = []) :
    a.Run context w t =
      (.ret (some ("export-filesystem: could not find a file for name '" ++ a.Name ++ "'")),
        t ++ [probe1 a w t, probe2 a w t, probe3 a w t]) ∧
    ((probe1 a w t).1 = .exec "test" ["-e", "/tmp/" ++ a.Name ++ ".img"] ∧
      (probe2 a w t).1 = .exec "test" ["-e", "/tmp/" ++ a.Name] ∧
      (probe3 a w t).1 = .exec "bash" ["-c", "ls /tmp/" ++ a.Name ++ "*"]) := by
  refine ⟨?_, rfl, rfl, rfl⟩
  unfold ExportFilesystemAction.Run
  rw [resolveSource_none a w t hs hn h1 h2 h3]
  simp

/-- C2: with Source empty and a non-empty Name, when the existence check of
`/tmp/<name>.img` succeeds, the source resolves to exactly that path after that
single probe; nothing `Run` does afterwards is a `test` or a `bash` command (the
second candidate and the glob are never consulted, whatever the world would
answer), every `dd` it issues has `if=/tmp/<name>.img`, and unless `Run` panics
that `dd` is the last command of the run. -/
theorem C2_first_candidate_wins (a : ExportFilesystemAction) (context : DebosContext)
    (w : World) (t : Trace) (hs : a.Source = "") (hn : a.Name ≠ "")
    (h1 : (w t (.exec "test" ["-e", "/tmp/" ++ a.Name ++ ".img"])).err = none) :
    resolveSource a w t =
      (.ok ("/tmp/" ++ a.Name ++ ".img"),
        t ++ [(.exec "test" ["-e", "/tmp/" ++ a.Name ++ ".img"],
          w t (.exec "test" ["-e", "/tmp/" ++ a.Name ++ ".img"]))]) ∧
    (∃ evs, (a.Run context w t).2 =
        t ++ (.exec "test" ["-e", "/tmp/" ++ a.Name ++ ".img"],
          w t (.exec "test" ["-e", "/tmp/" ++ a.Name ++ ".img"])) :: evs ∧
      ∀ e ∈ evs, e.1.prog ≠ some "test" ∧ e.1.prog ≠ some "bash" ∧
        (e.1.prog = some "dd" →
          e.1 = .exec "dd" ["if=" ++ ("/tmp/" ++ a.Name ++ ".img"),
            "of=" ++ absPath context a.Destination, "bs=4194304"])) ∧
    ((a.Run context w t).1 ≠ .goPanic →
      ∃ r, (a.Run context w t).2.getLast? =
        some (.exec "dd" ["if=" ++ ("/tmp/" ++ a.Name ++ ".img"),
          "of=" ++ absPath context a.Destination, "bs=4194304"], r)) := by
  have hr := resolveSource_first a w t hs hn h1
  have hrun : a.Run context w t = exportFrom a context ("/tmp/" ++ a.Name ++ ".img") w
      (t ++ [probe1 a w t]) := by
    unfold ExportFilesystemAction.Run
    rw [hr]
  have habs : absPath context ("/tmp/" ++ a.Name ++ ".img") = "/tmp/" ++ a.Name ++ ".img" := by
    rw [String.append_assoc]
    exact absPath_tmp context _
  refine ⟨hr, ?_, ?_⟩
  · obtain ⟨evs, h2, h3⟩ := exportFrom_events a context ("/tmp/" ++ a.Name ++ ".img") w
      (t ++ [probe1 a w t])
    refine ⟨evs, ?_, ?_⟩
    · rw [hrun, h2]
      simp [probe1]
    · intro e he
      rw [habs, ddCmd_eq] at h3
      rcases h3 e he with hm | hm | hm
      · rcases hm with hm | hm | hm <;> rw [hm] <;> refine ⟨by decide, by decide, ?_⟩ <;>
          intro hd <;> exact absurd hd (by decide)
      · rcases hm with hm | hm | hm <;> rw [hm] <;> refine ⟨by decide, by decide, ?_⟩ <;>
          intro hd <;> exact absurd hd (by decide)
      · rw [hm]
        exact ⟨by simp [Cmd.prog], by simp [Cmd.prog], fun _ => rfl⟩
  · intro hp
    rw [hrun] at hp ⊢
    obtain ⟨t2, h2, -⟩ := exportFrom_last a context _ w _ hp
    rw [h2, habs, ddCmd_eq]
    refine ⟨w t2 (.exec "dd" ["if=" ++ ("/tmp/" ++ a.Name ++ ".img"),
      "of=" ++ absPath context a.Destination, "bs=4194304"]), ?_⟩
    simp

/-- C3: with `trim = false`, whatever the world answers, `Run` does not
panic and issues no `losetup`, `findmnt`, `umount`, `blkid`, `e2fsck` or
`resize2fs`: its commands are the probes of the name resolution (none when a
source path is given), followed, when the source is resolved, by the one `dd`
copy; when the resolution fails, `Run` returns the error after the probes. -/
theorem C3_no_trim_no_mount_query (a : ExportFilesystemAction) (context : DebosContext)
    (w : World) (t : Trace) (htrim : a.Trim = false) :
    (a.Run context w t).1 ≠ .goPanic ∧
    (∀ e ∈ (a.Run context w t).2.drop t.length,
      e.1.prog ∉ [some "losetup", some "findmnt", some "umount", some "blkid",
        some "e2fsck", some "resize2fs"]) ∧
    ∃ probes, (resolveSource a w t).2 = t ++ probes ∧ (∀ e ∈ probes, isProbe a e.1) ∧
      ((∃ msg, (resolveSource a w t).1 = .error msg ∧
          a.Run context w t = (.ret (some msg), t ++ probes)) ∨
       (∃ src, (resolveSource a w t).1 = .ok src ∧
          (a.Run context w t).2 = t ++ probes ++
            [(.exec "dd" ["if=" ++ absPath context src,
                "of=" ++ absPath context a.Destination, "bs=4194304"],
              w (t ++ probes) (.exec "dd" ["if=" ++ absPath context src,
                "of=" ++ absPath context a.Destination, "bs=4194304"]))])) := by
  obtain ⟨probes, h1, h2, h3⟩ := Run_shape a context w t
  have hprobe : ∀ e ∈ probes, e.1.prog ∉ [some "losetup", some "findmnt", some "umount",
      some "blkid", some "e2fsck", some "resize2fs"] := by
    intro e he
    rcases isProbe_prog a e.1 (h2 e he) with h | h <;> rw [h] <;> decide
  rcases h3 with ⟨msg, h4, h5⟩ | ⟨src, h4, h5⟩
  · refine ⟨?_, ?_, probes, h1, h2, Or.inl ⟨msg, h4, h5⟩⟩
    · rw [h5]; simp
    · rw [h5]
      simpa using hprobe
  · have h6 : a.Run context w t =
        (.ret (copyPhase (absPath context src) (absPath context a.Destination) w
            (t ++ probes)).1,
          t ++ probes ++ [(ddCmd (absPath context src) (absPath context a.Destination),
            w (t ++ probes) (ddCmd (absPath context src) (absPath context a.Destination)))]) := by
      rw [h5]
      rcases exportFrom_cases a context src w (t ++ probes) with ⟨-, h⟩ | ⟨h, -⟩ | ⟨h, -⟩
      · rw [h, copyPhase_trace]
      · rw [htrim] at h; cases h
      · rw [htrim] at h; cases h
    refine ⟨?_, ?_, probes, h1, h2, Or.inr ⟨src, h4, ?_⟩⟩
    · rw [h6]; simp
    · rw [h6]
      intro e he
      simp only [List.append_assoc, List.drop_left, List.mem_append, List.mem_singleton] at he
      rcases he with he | rfl
      · exact hprobe e he
      · rw [ddCmd_eq]
        simp [Cmd.prog]
    · rw [h6, ddCmd_eq]

/-- C4: whenever the white-space-trimmed type reported by the `blkid` probe
(the empty string when the probe fails) does not start with `ext`, `Run` issues
neither `e2fsck` nor `resize2fs`, whatever the trim flag and the other answers of
the world. -/
theorem C4_non_ext_no_shrink (a : ExportFilesystemAction) (context : DebosContext)
    (w : World) (t : Trace)
    (hblk : ∀ e ∈ (a.Run context w t).2.drop t.length, e.1.prog = some "blkid" →
      HasPrefix (TrimSpace (if e.2.err ≠ none then "" else e.2.out)) "ext" = false) :
    ∀ e ∈ (a.Run context w t).2.drop t.length,
      e.1.prog ≠ some "e2fsck" ∧ e.1.prog ≠ some "resize2fs" := by
  obtain ⟨probes, h1, h2, h3⟩ := Run_shape a context w t
  have hprobe : ∀ e ∈ probes, e.1.prog ≠ some "e2fsck" ∧ e.1.prog ≠ some "resize2fs" := by
    intro e he
    rcases isProbe_prog a e.1 (h2 e he) with h | h <;> rw [h] <;> decide
  have hmount : ∀ e, MountEvent e → e.1.prog ≠ some "e2fsck" ∧ e.1.prog ≠ some "resize2fs" := by
    intro e he
    rcases he with h | h | h <;> rw [h] <;> decide
  have hdd : ∀ sp dp : String,
      (ddCmd sp dp).prog ≠ some "e2fsck" ∧ (ddCmd sp dp).prog ≠ some "resize2fs" := by
    intro sp dp
    rw [ddCmd_eq]
    simp [Cmd.prog]
  rcases h3 with ⟨msg, -, h5⟩ | ⟨src, -, h5⟩
  · rw [h5]
    simpa using hprobe
  · rw [h5] at hblk ⊢
    rcases exportFrom_cases a context src w (t ++ probes) with ⟨-, h⟩ | ⟨-, -, h⟩ | ⟨-, -, h⟩
    · rw [h, copyPhase_trace]
      intro e he
      simp only [List.append_assoc, List.drop_left, List.mem_append, List.mem_singleton] at he
      rcases he with he | rfl
      · exact hprobe e he
      · exact hdd _ _
    · rw [h]
      obtain ⟨evs, h6, h7⟩ := unmountPhase_trace (absPath context src) w (t ++ probes)
      rw [h6]
      intro e he
      simp only [List.append_assoc, List.drop_left, List.mem_append] at he
      rcases he with he | he
      · exact hprobe e he
      · exact hmount e (h7 e he)
    · rw [h, copyPhase_trace] at hblk ⊢
      obtain ⟨evs, h6, h7⟩ := unmountPhase_trace (absPath context src) w (t ++ probes)
      rcases shrinkPhase_trace (absPath context src) w
        (unmountPhase (absPath context src) w (t ++ probes)).2 with ⟨-, h8⟩ | ⟨h9, r1, r2, h8⟩
      · rw [h8, h6]
        intro e he
        simp only [List.append_assoc, List.drop_left, List.mem_append, List.mem_singleton] at he
        rcases he with he | he | rfl | rfl
        · exact hprobe e he
        · exact hmount e (h7 e he)
        · simp [Cmd.prog]
        · exact hdd _ _
      · exfalso
        rw [h8, h6] at hblk
        rw [h6] at h9
        have := hblk (.exec "blkid" ["-s", "TYPE", "-o", "value", absPath context src],
          w (t ++ probes ++ evs)
            (.exec "blkid" ["-s", "TYPE", "-o", "value", absPath context src]))
          (by simp) rfl
        simp only at this
        rw [h9] at this
        cases this

theorem unmountPhase_ret (p : String) (w : World) (t : Trace)
    (h : (unmountPhase p w t).1 = .ret ()) :
    ((isImageMounted p w t).1 = false ∧ (unmountPhase p w t).2 = (isImageMounted p w t).2) ∨
    ((isImageMounted p w t).1 = true ∧
      ∃ r, unmountImage p w (isImageMounted p w t).2 = (.ret r, (unmountPhase p w t).2)) := by
  unfold unmountPhase at h ⊢
  simp only [] at h ⊢
  by_cases hm : (isImageMounted p w t).1 = true
  · right
    simp only [hm, if_true] at h ⊢
    cases hu : unmountImage p w (isImageMounted p w t).2 with
    | mk o t2 =>
      rw [hu] at h
      cases o with
      | goPanic => simp at h
      | ret r => exact ⟨trivial, r, rfl⟩
  · left
    simp only [Bool.not_eq_true] at hm
    simp [hm]

/-- C5 (as amended): in every execution of `Run` in which `e2fsck` or
`resize2fs` is run, the source was resolved, the trim flag is set, and the run
ends with exactly `blkid`, `e2fsck`, `resize2fs`, `dd` on the source, issued
after the mount-state check; and either that check (`isImageMounted`) reported
the source as not loop-mounted, or the force-unmount (`unmountImage`) was run to
completion between the check and the `blkid`, whatever it returned and whether or
not its `umount` and `losetup -d` commands succeeded. -/
theorem C5_shrink_follows_unmount_attempt (a : ExportFilesystemAction)
    (context : DebosContext) (w : World) (t : Trace)
    (hrun : ∃ e ∈ (a.Run context w t).2.drop t.length,
      e.1.prog = some "e2fsck" ∨ e.1.prog = some "resize2fs") :
    a.Trim = true ∧
    ∃ src t1 t2 tail, resolveSource a w t = (.ok src, t1) ∧
      (a.Run context w t).2 = t2 ++ tail ∧
      tail.map Prod.fst =
        [.exec "blkid" ["-s", "TYPE", "-o", "value", absPath context src],
         .exec "e2fsck" ["-f", "-y", absPath context src],
         .exec "resize2fs" ["-M", absPath context src],
         .exec "dd" ["if=" ++ absPath context src, "of=" ++ absPath context a.Destination,
           "bs=4194304"]] ∧
      (((isImageMounted (absPath context src) w t1).1 = false ∧
          t2 = (isImageMounted (absPath context src) w t1).2) ∨
       ((isImageMounted (absPath context src) w t1).1 = true ∧
          ∃ r, unmountImage (absPath context src) w
            (isImageMounted (absPath context src) w t1).2 = (.ret r, t2))) := by
  obtain ⟨probes, h1, h2, h3⟩ := Run_shape a context w t
  have hprobe : ∀ e ∈ probes, ¬ (e.1.prog = some "e2fsck" ∨ e.1.prog = some "resize2fs") := by
    intro e he
    rcases isProbe_prog a e.1 (h2 e he) with h | h <;> rw [h] <;> decide
  have hmount : ∀ e, MountEvent e →
      ¬ (e.1.prog = some "e2fsck" ∨ e.1.prog = some "resize2fs") := by
    intro e he
    rcases he with h | h | h <;> rw [h] <;> decide
  have hdd : ∀ sp dp : String,
      ¬ ((ddCmd sp dp).prog = some "e2fsck" ∨ (ddCmd sp dp).prog = some "resize2fs") := by
    intro sp dp
    rw [ddCmd_eq]
    simp [Cmd.prog]
  obtain ⟨e, he, hshrink⟩ := hrun
  rcases h3 with ⟨msg, -, h5⟩ | ⟨src, h4, h5⟩
  · rw [h5] at he
    simp only [List.drop_left] at he
    exact absurd hshrink (hprobe e he)
  · rw [h5] at he ⊢
    have hres : resolveSource a w t = (.ok src, t ++ probes) := by
      rw [← h4, ← h1]
    rcases exportFrom_cases a context src w (t ++ probes) with
      ⟨-, h⟩ | ⟨-, -, h⟩ | ⟨htrim, hret, h⟩
    · rw [h, copyPhase_trace] at he
      simp only [List.append_assoc, List.drop_left, List.mem_append, List.mem_singleton] at he
      rcases he with he | rfl
      · exact absurd hshrink (hprobe e he)
      · exact absurd hshrink (hdd _ _)
    · rw [h] at he
      obtain ⟨evs, h6, h7⟩ := unmountPhase_trace (absPath context src) w (t ++ probes)
      rw [h6] at he
      simp only [List.append_assoc, List.drop_left, List.mem_append] at he
      rcases he with he | he
      · exact absurd hshrink (hprobe e he)
      · exact absurd hshrink (hmount e (h7 e he))
    · rw [h, copyPhase_trace] at he ⊢
      rcases shrinkPhase_trace (absPath context src) w
        (unmountPhase (absPath context src) w (t ++ probes)).2 with ⟨-, h8⟩ | ⟨-, r1, r2, h8⟩
      · exfalso
        obtain ⟨evs, h6, h7⟩ := unmountPhase_trace (absPath context src) w (t ++ probes)
        rw [h8, h6] at he
        simp only [List.append_assoc, List.drop_left, List.mem_append, List.mem_singleton] at he
        rcases he with he | he | rfl | rfl
        · exact hprobe e he hshrink
        · exact hmount e (h7 e he) hshrink
        · simp [Cmd.prog] at hshrink
        · exact hdd _ _ hshrink
      · refine ⟨htrim, src, t ++ probes, (unmountPhase (absPath context src) w (t ++ probes)).2,
          [(.exec "blkid" ["-s", "TYPE", "-o", "value", absPath context src],
              w (unmountPhase (absPath context src) w (t ++ probes)).2
                (.exec "blkid" ["-s", "TYPE", "-o", "value", absPath context src])),
            (.exec "e2fsck" ["-f", "-y", absPath context src], r1),
            (.exec "resize2fs" ["-M", absPath context src], r2),
            (ddCmd (absPath context src) (absPath context a.Destination),
              w (shrinkPhase (absPath context src) w
                  (unmountPhase (absPath context src) w (t ++ probes)).2)
                (ddCmd (absPath context src) (absPath context a.Destination)))],
          hres, ?_, ?_, ?_⟩
        · rw [h8]
          simp
        · simp [ddCmd_eq]
        · rcases unmountPhase_ret (absPath context src) w (t ++ probes) hret with
            ⟨h9, h10⟩ | ⟨h9, r, h10⟩
          · exact Or.inl ⟨h9, h10⟩
          · exact Or.inr ⟨h9, r, h10⟩

/-- The counterexample to C5 as stated: on a busy mountpoint `Run` runs
`e2fsck` and `resize2fs` on `/tmp/disk.img` although the mount-state check
reported the image mounted and the `umount` and `losetup -d` of the force-unmount
both failed. -/
theorem C5_counterexample :
    ¬ ((∃ e ∈ (diskJob.Run artContext busyWorld []).2,
          e.1.prog = some "e2fsck" ∨ e.1.prog = some "resize2fs") →
        ((isImageMounted "/tmp/disk.img" busyWorld (resolveSource diskJob busyWorld []).2).1
            = false ∨
         ((unmountImage "/tmp/disk.img" busyWorld
              (isImageMounted "/tmp/disk.img" busyWorld
                (resolveSource diskJob busyWorld []).2).2).1 = .ret none ∧
           ∀ e ∈ (unmountImage "/tmp/disk.img" busyWorld
              (isImageMounted "/tmp/disk.img" busyWorld
                (resolveSource diskJob busyWorld []).2).2).2,
             isTeardown e.1 = true → e.2.err = none))) := by
  decide

/-! ## When the force-unmount panics, and what `Run` returns when it does not -/

theorem splitGo_ne_nil (sep : Char) (l cur : List Char) : splitGo sep l cur ≠ [] := by
  induction l generalizing cur with
  | nil => simp [splitGo]
  | cons c cs ih =>
    unfold splitGo
    split
    · simp
    · exact ih _

theorem loopDevice_panic_iff (line : String) :
    loopDevice line = .goPanic ↔ Fields line = [] := by
  unfold loopDevice
  cases hf : Fields line with
  | nil => simp
  | cons f0 fs =>
    simp only [reduceCtorEq, iff_false]
    cases hs : Split f0 ':' with
    | nil => exact absurd hs (splitGo_ne_nil _ _ _)
    | cons d ds => simp

/-- The loop of `unmountImage` completes when every non-empty line has a field
(a line without a colon included). -/
theorem unmountLines_completes (w : World) (lines : List String) (t : Trace)
    (h : ∀ line ∈ lines, line ≠ "" → Fields line ≠ []) :
    (unmountLines w lines t).1 = .ret () := by
  induction lines generalizing t with
  | nil => rfl
  | cons line rest ih =>
    have hrest : ∀ l ∈ rest, l ≠ "" → Fields l ≠ [] :=
      fun l hl => h l (List.mem_cons_of_mem _ hl)
    unfold unmountLines
    by_cases hl : line = ""
    · rw [if_pos hl]; exact ih t hrest
    · rw [if_neg hl]
      cases hd : loopDevice line with
      | goPanic =>
        exact absurd ((loopDevice_panic_iff line).mp hd) (h line (List.mem_cons_self _ _) hl)
      | ret d => exact ih _ hrest

/-- Unless it panics, `Run` with a resolved source ends with the `dd` copy, and
it returns no error exactly when that `dd` succeeds, whatever the other commands
answered. -/
theorem Run_result_is_copy_result (a : ExportFilesystemAction) (context : DebosContext)
    (w : World) (t : Trace) (src : String) (t1 : Trace)
    (hres : resolveSource a w t = (.ok src, t1))
    (hnp : (a.Run context w t).1 ≠ .goPanic) :
    ∃ t2, (a.Run context w t).2 =
        t2 ++ [(.exec "dd" ["if=" ++ absPath context src,
            "of=" ++ absPath context a.Destination, "bs=4194304"],
          w t2 (.exec "dd" ["if=" ++ absPath context src,
            "of=" ++ absPath context a.Destination, "bs=4194304"]))] ∧
      ((a.Run context w t).1 = .ret none ↔
        (w t2 (.exec "dd" ["if=" ++ absPath context src,
            "of=" ++ absPath context a.Destination, "bs=4194304"])).err = none) := by
  have hrun : a.Run context w t = exportFrom a context src w t1 := by
    unfold ExportFilesystemAction.Run
    rw [hres]
  rw [hrun] at hnp ⊢
  have := exportFrom_last a context src w t1 hnp
  rw [ddCmd_eq] at this
  exact this

/-- C10 (defect of the code): a line of the `losetup -j` listing that is not
empty but holds only white space has no field, so `fields[0]` is out of range
and `unmountImage` panics instead of returning. -/
theorem C10_blank_line_panics :
    Fields " " = [] ∧ loopDevice " " = .goPanic ∧
    (blankLineWorld [] (.exec "losetup" ["-j", "/tmp/disk.img"])).out =
      "/dev/loop0: [2049]:131 (/tmp/disk.img)\n \n" ∧
    (unmountImage "/tmp/disk.img" blankLineWorld []).1 = .goPanic := by
  decide

/-- C6 (defect of the code, the one of C10): the source of the job resolves to
`/tmp/disk.img`, yet `Run` panics in the force-unmount and never issues the `dd`
copy. -/
theorem C6_panic_skips_copy :
    (resolveSource diskJob blankLineWorld []).1 = .ok "/tmp/disk.img" ∧
    (diskJob.Run artContext blankLineWorld []).1 = .goPanic ∧
    "dd" ∉ progs (diskJob.Run artContext blankLineWorld []).2 := by
  decide

/-! ## The claims on concrete runs -/

/-- The first-candidate rule on the job `disk` in a world where every command
succeeds. -/
theorem C2_first_candidate_wins_witness :
    diskJob.Source = "" ∧ diskJob.Name ≠ "" ∧
    resolveSource diskJob quietWorld [] =
      (.ok ("/tmp/" ++ diskJob.Name ++ ".img"),
        [] ++ [(.exec "test" ["-e", "/tmp/" ++ diskJob.Name ++ ".img"],
          quietWorld [] (.exec "test" ["-e", "/tmp/" ++ diskJob.Name ++ ".img"]))]) :=
  ⟨by decide, by decide,
    (C2_first_candidate_wins diskJob artContext quietWorld [] (by decide) (by decide)
      (by decide)).1⟩

/-- An export without trimming in a world where every command succeeds: one
probe, then the copy. -/
theorem C3_no_trim_no_mount_query_witness :
    plainJob.Trim = false ∧
    (plainJob.Run artContext quietWorld []).1 ≠ .goPanic ∧
    (plainJob.Run artContext quietWorld []).2.map Prod.fst =
      [.exec "test" ["-e", "/tmp/disk.img"],
       .exec "dd" ["if=/tmp/disk.img", "of=/art/out.img", "bs=4194304"]] :=
  ⟨by decide, (C3_no_trim_no_mount_query plainJob artContext quietWorld [] (by decide)).1,
    by decide⟩

/-- An export with trimming of an xfs image: `blkid` is asked, nothing is
shrunk. -/
theorem C4_non_ext_no_shrink_witness :
    (∀ e ∈ (diskJob.Run artContext xfsWorld []).2.drop ([] : Trace).length,
      e.1.prog = some "blkid" →
        HasPrefix (TrimSpace (if e.2.err ≠ none then "" else e.2.out)) "ext" = false) ∧
    (∀ e ∈ (diskJob.Run artContext xfsWorld []).2.drop ([] : Trace).length,
      e.1.prog ≠ some "e2fsck" ∧ e.1.prog ≠ some "resize2fs") ∧
    "blkid" ∈ progs (diskJob.Run artContext xfsWorld []).2 :=
  ⟨by decide, C4_non_ext_no_shrink diskJob artContext xfsWorld [] (by decide), by decide⟩

/-- The busy-mountpoint run does reach `e2fsck` and `resize2fs`. -/
theorem C5_shrink_follows_unmount_attempt_witness :
    (∃ e ∈ (diskJob.Run artContext busyWorld []).2.drop ([] : Trace).length,
      e.1.prog = some "e2fsck" ∨ e.1.prog = some "resize2fs") ∧
    diskJob.Trim = true :=
  ⟨by decide, (C5_shrink_follows_unmount_attempt diskJob artContext busyWorld []
    (by decide)).1⟩

/-- The format command of a labelled ext4 job, and of a labelled btrfs job
(no label passed). -/
theorem C7_mkfs_command_witness :
    (quietWorld [] (.create (absPath artContext ext4Job.Path))).err = none ∧
    (((ext4Job.Run artContext quietWorld []).2.drop ([] : Trace).length).map Prod.fst).get? 2 =
      some (.exec ("mkfs." ++ ext4Job.Filesystem)
        ((if ext4Job.Label ≠ "" ∧ (HasPrefix ext4Job.Filesystem "ext" = true ∨
            ext4Job.Filesystem = "xfs" ∨ ext4Job.Filesystem = "vfat" ∨
            ext4Job.Filesystem = "ntfs")
          then ["-L", ext4Job.Label] else []) ++ Fields ext4Job.Options ++
          [absPath artContext ext4Job.Path])) ∧
    mkfsCmd ext4Job "/tmp/disk.img" =
      Cmd.exec "mkfs.ext4" ["-L", "root", "-q", "-F", "/tmp/disk.img"] ∧
    mkfsCmd btrfsJob "/art/d.img" = Cmd.exec "mkfs.btrfs" ["-f", "-q", "/art/d.img"] :=
  ⟨by decide, C7_mkfs_command ext4Job artContext quietWorld [] (by decide) (by decide),
    by decide, by decide⟩

/-- The mount record of an ext4 job: set when every command succeeds, empty
when every command fails. -/
theorem C8_mount_record_witness :
    ext4Job.mountTarget = "" ∧
    ((ext4Job.Run artContext quietWorld []).1.2.mountTarget ≠ "" ↔
      (ext4Job.Run artContext quietWorld []).1.1 = none) ∧
    (ext4Job.Run artContext quietWorld []).1.2.mountTarget = "/mnt/work" ∧
    (ext4Job.Run artContext failWorld []).1.2.mountTarget = "" :=
  ⟨by decide,
    (C8_mount_record ext4Job artContext (fun _ _ => none) quietWorld [] (by decide)).1,
    by decide, by decide⟩

/-- The name `disk` in a world where every command fails: three probes, then
the not-found error. -/
theorem C9_unresolved_name_fails_witness :
    (probe1 diskJob failWorld []).2.err ≠ none ∧
    (probe2 diskJob failWorld []).2.err ≠ none ∧
    diskJob.Run artContext failWorld [] =
      (.ret (some ("export-filesystem: could not find a file for name '" ++
          diskJob.Name ++ "'")),
        [] ++ [probe1 diskJob failWorld [], probe2 diskJob failWorld [],
          probe3 diskJob failWorld []]) :=
  ⟨by decide, by decide,
    (C9_unresolved_name_fails diskJob artContext failWorld [] (by decide) (by decide)
      (by decide) (by decide) (Or.inl (by decide))).1⟩

end Builder
